import Mathlib

/-!
Verification of the aggregation pipeline of `perfect_job_scraper.py`.

The development shallowly embeds the pure core of the program:

* `parse_salary_to_number` / `extract_number` — the salary normalizer
  (`PerfectJobScraper.parse_salary_to_number` / `_extract_number`).
  Python `float` arithmetic is modelled by `Rat`; every value the claims
  touch is an integer-valued decimal, exactly representable in both.
  Python's regexes `(\d+(?:\.\d+)?)k` and `(\d+(?:\.\d+)?)` are modelled
  by an explicit leftmost-match scanner over the character list (for these
  patterns the greedy parse at a position succeeds iff some backtracking
  parse succeeds, so no backtracking is modelled).
* `calculate_relevance_score` — the deterministic relevance scorer.  The
  Python function returns the score and additionally assigns
  `job['salary_numeric']`; the embedding returns the score paired with the
  updated record.
* `ai_career_score`, `ai_enhanced_job_ranking` — the "enrichment" blend
  applied to the first twenty rows (`jobs_df.head(20)`).
* `ai_enhanced_relevance_scoring` — AI scoring with fallback; the external
  CrewAI call is abstracted as a parameter `ai : Job → Option Nat`
  (`none` models a raised exception or an answer without a parsable
  `SCORE:`, in which case the code falls back to the deterministic
  scorer).
* `process_and_rank_jobs` — dedup (`drop_duplicates` on exact
  `(title, company)`, keep first), field stripping, salary parsing,
  scoring, ranking, final sort on `final_ai_score` and dense rank
  assignment.  `pandas.sort_values` on a single key is modelled as a
  stable insertion sort on that key.
* `scrape_all_sources` — the fan-in of the orchestrator: each adapter's
  outcome is an `Except` value (an exception raised by the future is
  caught and contributes nothing); the API phase result is appended.

Presentation-only artefacts (printing, the `ai_analysis` prose, the
insights text, CSV export) are omitted.
-/

/-! ### Characters and strings: Python primitives on `List Char` -/

/-- Python `str.lower` (the program only lowercases ASCII text). -/
def lowerList (l : List Char) : List Char := l.map Char.toLower

/-- Does the second list start with the first one? -/
def strStarts : List Char → List Char → Bool
  | [], _ => true
  | _ :: _, [] => false
  | a :: as, b :: bs => a == b && strStarts as bs

/-- Python's substring test `needle in hay`. -/
def listHas (needle : List Char) : List Char → Bool
  | [] => strStarts needle []
  | h :: t => strStarts needle (h :: t) || listHas needle t

/-- Python `str.replace old new` (all non-overlapping occurrences, left
to right), structured on a fuel argument so that it reduces in the
kernel; `replaceList` supplies enough fuel for the whole input. -/
def replaceFuel (pat rep : List Char) : Nat → List Char → List Char
  | _, [] => []
  | 0, l => l
  | fuel + 1, h :: t =>
    if pat ≠ [] ∧ strStarts pat (h :: t) = true then
      rep ++ replaceFuel pat rep fuel ((h :: t).drop pat.length)
    else
      h :: replaceFuel pat rep fuel t

/-- Python `str.replace old new`. -/
def replaceList (pat rep l : List Char) : List Char :=
  replaceFuel pat rep l.length l

/-- Python `str.strip` (ASCII whitespace at both ends). -/
def trimList (l : List Char) : List Char :=
  ((l.dropWhile Char.isWhitespace).reverse.dropWhile Char.isWhitespace).reverse

/-- Python `str.split(seps)` / `re.split` over single-character
separators. -/
def splitAny (seps : List Char) : List Char → List (List Char)
  | [] => [[]]
  | h :: t =>
    if seps.contains h then [] :: splitAny seps t
    else
      match splitAny seps t with
      | [] => [[h]]
      | p :: ps => (h :: p) :: ps

/-! ### Executable rational arithmetic

The program's numbers are Python floats; they are modelled by `Rat`
(every numeral the claims touch is exactly representable in both).
`Rat.mul`, `Rat.add` and `Rat.div` are `@[irreducible]` in this
toolchain, so the embedding uses kernel-computable equivalents built
from `mkRat`; the bridge lemmas identify them with the standard
operations. -/

/-- Executable multiplication on `Rat`. -/
def rMul (a b : Rat) : Rat := mkRat (a.num * b.num) (a.den * b.den)

/-- Executable addition on `Rat`. -/
def rAdd (a b : Rat) : Rat := mkRat (a.num * (b.den : Int) + b.num * (a.den : Int)) (a.den * b.den)

/-- Executable division of a `Rat` by a natural number. -/
def rDivNat (a : Rat) (n : Nat) : Rat := mkRat a.num (a.den * n)

theorem rMul_eq (a b : Rat) : rMul a b = a * b := by
  rw [rMul, Rat.mkRat_eq_div]
  push_cast
  conv_rhs => rw [← Rat.num_div_den a, ← Rat.num_div_den b]
  rw [div_mul_div_comm]

theorem rAdd_eq (a b : Rat) : rAdd a b = a + b := by
  rw [rAdd, Rat.mkRat_eq_div]
  push_cast
  conv_rhs => rw [← Rat.num_div_den a, ← Rat.num_div_den b]
  rw [div_add_div _ _ (by positivity) (by positivity)]
  ring_nf

theorem rDivNat_eq (a : Rat) (n : Nat) : rDivNat a n = a / n := by
  rcases Nat.eq_zero_or_pos n with h | h
  · subst h; simp [rDivNat, Rat.mkRat_eq_div]
  · rw [rDivNat, Rat.mkRat_eq_div]
    push_cast
    conv_rhs => rw [← Rat.num_div_den a]
    rw [div_div]

/-! ### The salary normalizer (`parse_salary_to_number`, `_extract_number`) -/

/-- Numeric value of a run of decimal digits. -/
def digitsVal (ds : List Char) : Nat := ds.foldl (fun a c => a * 10 + (c.toNat - 48)) 0

/-- Value of the fractional digits of a decimal literal. -/
def fracVal (ds : List Char) : Rat := rDivNat (digitsVal ds : Rat) (10 ^ ds.length)

/-- Greedy parse of `\d+(?:\.\d+)?` at the head of the list; returns the
value and the rest of the input. -/
def numAt (l : List Char) : Option (Rat × List Char) :=
  let ds := l.takeWhile Char.isDigit
  if ds = [] then none
  else
    let rest := l.dropWhile Char.isDigit
    match rest with
    | '.' :: r =>
      let fs := r.takeWhile Char.isDigit
      if fs = [] then some ((digitsVal ds : Rat), rest)
      else some (rAdd (digitsVal ds : Rat) (fracVal fs), r.dropWhile Char.isDigit)
    | _ => some ((digitsVal ds : Rat), rest)

/-- `re.search(r'(\d+(?:\.\d+)?)', text)`: value of the leftmost decimal
number. -/
def searchNum : List Char → Option Rat
  | [] => none
  | h :: t =>
    match numAt (h :: t) with
    | some (v, _) => some v
    | none => searchNum t

/-- `re.search(r'(\d+(?:\.\d+)?)k', text)`: value of the leftmost decimal
number immediately followed by `k`. -/
def searchNumK : List Char → Option Rat
  | [] => none
  | h :: t =>
    match numAt (h :: t) with
    | some (v, 'k' :: _) => some v
    | _ => searchNumK t

/-- `PerfectJobScraper._extract_number`:  `k`-notation, then the first
plain number classified by unit words. -/
def extract_number (text : List Char) : Rat :=
  match (if text.contains 'k' then searchNumK text else none) with
  | some v => rMul v 1000
  | none =>
    match searchNum text with
    | none => 0
    | some b =>
      if listHas "hour".data text || listHas "hr".data text then rMul b 2080
      else if listHas "month".data text || listHas "mo".data text then rMul b 12
      else if (listHas "year".data text || listHas "yr".data text ||
               listHas "annually".data text) || b > 1000 then b
      else if b > 1000 then b else rMul b 1000

/-- Python `x or y` on numbers (`0` is falsy). -/
def pyOr (a b : Rat) : Rat := if a = 0 then b else a

/-- `PerfectJobScraper.parse_salary_to_number`: free-text salary to a
yearly numeric estimate. -/
def parse_salary_to_number (salary_text : String) : Rat :=
  if salary_text = "" || salary_text = "Not specified" then 0
  else
    let clean := trimList (replaceList "salary:".data []
      (replaceList ",".data [] (replaceList "$".data []
        (lowerList salary_text.data))))
    if clean.contains '-' || clean.contains '–' || clean.contains '—' then
      match splitAny ['-', '–', '—'] clean with
      | [p1, p2] =>
        let low := extract_number p1
        let high := extract_number p2
        if low ≠ 0 ∧ high ≠ 0 then rDivNat (rAdd low high) 2
        else max (pyOr low 0) (pyOr high 0)
      | _ => extract_number clean
    else extract_number clean

/-! ### Nonnegativity of the salary normalizer -/

theorem fracVal_nonneg (ds : List Char) : 0 ≤ fracVal ds := by
  rw [fracVal, rDivNat_eq]
  positivity

theorem numAt_nonneg (l : List Char) (v : Rat) (r : List Char)
    (h : numAt l = some (v, r)) : 0 ≤ v := by
  unfold numAt at h
  dsimp only at h
  split at h
  · cases h
  · split at h
    · split at h
      · cases h
        exact Nat.cast_nonneg _
      · cases h
        rw [rAdd_eq]
        exact add_nonneg (Nat.cast_nonneg _) (fracVal_nonneg _)
    · cases h
      exact Nat.cast_nonneg _

theorem searchNum_nonneg (l : List Char) (v : Rat) (h : searchNum l = some v) : 0 ≤ v := by
  induction l with
  | nil => cases h
  | cons a t ih =>
    unfold searchNum at h
    split at h
    · next p r heq =>
      cases h
      exact numAt_nonneg _ _ _ heq
    · exact ih h

theorem searchNumK_nonneg (l : List Char) (v : Rat) (h : searchNumK l = some v) : 0 ≤ v := by
  induction l with
  | nil => cases h
  | cons a t ih =>
    unfold searchNumK at h
    split at h
    · next p r heq =>
      cases h
      exact numAt_nonneg _ _ _ heq
    · exact ih h

theorem extract_number_nonneg (text : List Char) : 0 ≤ extract_number text := by
  unfold extract_number
  split
  · next v hv =>
    have h0 : 0 ≤ v := by
      by_cases hc : text.contains 'k'
      · rw [if_pos hc] at hv
        exact searchNumK_nonneg _ _ hv
      · rw [if_neg hc] at hv
        cases hv
    rw [rMul_eq]
    exact mul_nonneg h0 (by norm_num)
  · next hv =>
    split
    · norm_num
    · next b hb =>
      have h0 : 0 ≤ b := searchNum_nonneg _ _ hb
      split
      · rw [rMul_eq]; exact mul_nonneg h0 (by norm_num)
      · split
        · rw [rMul_eq]; exact mul_nonneg h0 (by norm_num)
        · split
          · exact h0
          · split
            · exact h0
            · rw [rMul_eq]; exact mul_nonneg h0 (by norm_num)

theorem pyOr_nonneg {a b : Rat} (ha : 0 ≤ a) (hb : 0 ≤ b) : 0 ≤ pyOr a b := by
  unfold pyOr
  split <;> assumption

theorem parse_salary_to_number_nonneg (s : String) : 0 ≤ parse_salary_to_number s := by
  unfold parse_salary_to_number
  split
  · norm_num
  · dsimp only
    split
    · split
      · next p1 p2 heq =>
        split
        · rw [rDivNat_eq, rAdd_eq]
          exact div_nonneg (add_nonneg (extract_number_nonneg p1) (extract_number_nonneg p2))
            (by norm_num)
        · exact le_max_of_le_left (pyOr_nonneg (extract_number_nonneg p1) le_rfl)
      · exact extract_number_nonneg _
    · exact extract_number_nonneg _

/-- Claim C4: the salary normalizer reproduces the spec's test vector:
a dollar range averages to `110000`, an hourly rate is scaled by `2080`,
the `"Not specified"` sentinel yields `0`, and a `k`-suffixed number is
scaled by `1000`. -/
theorem claim_C4 :
    parse_salary_to_number "$100,000 - $120,000" = 110000 ∧
    parse_salary_to_number "$50/hour" = 104000 ∧
    parse_salary_to_number "Not specified" = 0 ∧
    parse_salary_to_number "90k" = 90000 := by
  decide

/-- Claim C5: for every input string the salary normalizer returns a
non-negative number (the embedding is a total function, so no exception
can propagate), and empty, sentinel and unparseable inputs yield `0`. -/
theorem claim_C5 :
    ∀ s : String, 0 ≤ parse_salary_to_number s ∧
      parse_salary_to_number "" = 0 ∧
      parse_salary_to_number "Not specified" = 0 ∧
      parse_salary_to_number "Competitive pay and benefits!" = 0 := by
  intro s
  exact ⟨parse_salary_to_number_nonneg s, by decide, by decide, by decide⟩

/-! ### The canonical job record

A pandas row; fields the pipeline manipulates.  `salary_numeric`,
`relevance_score`, `ai_career_score`, `final_ai_score`, `rank` and
`ai_rank` are the columns the pipeline assigns (they default to `0`
before assignment, standing for an absent column). -/

structure Job where
  title : String := ""
  company : String := ""
  location : String := ""
  summary : String := ""
  salary : String := ""
  source : String := ""
  salary_numeric : Rat := 0
  relevance_score : Nat := 0
  ai_career_score : Nat := 0
  final_ai_score : Rat := 0
  rank : Nat := 0
  ai_rank : Nat := 0
deriving DecidableEq, Repr

/-! ### The relevance scorer (`calculate_relevance_score`) -/

/-- `[kw.strip().lower() for kw in keywords.split(',') if kw.strip()]`. -/
def splitKeywords (s : String) : List (List Char) :=
  ((splitAny [','] s.data).filter (fun kw => trimList kw ≠ [])).map
    (fun kw => lowerList (trimList kw))

/-- How many of the terms occur as substrings of the haystack. -/
def countIn (terms : List (List Char)) (hay : List Char) : Nat :=
  (terms.filter (fun t => listHas t hay)).length

/-- Python `any(term in hay for term in terms)`. -/
def anyIn (terms : List String) (hay : List Char) : Bool :=
  terms.any (fun t => listHas t.data hay)

/-- `PerfectJobScraper.calculate_relevance_score`: deterministic additive
score.  The Python function also assigns `job['salary_numeric']`; the
embedding returns the score together with the updated record. -/
def calculate_relevance_score (job : Job) (search_keywords location_keywords : String) :
    Nat × Job :=
  let title_lower := lowerList job.title.data
  let company_lower := lowerList job.company.data
  let location_lower := lowerList job.location.data
  let summary_lower := lowerList job.summary.data
  let search_terms := splitKeywords search_keywords
  let location_terms := splitKeywords location_keywords
  let score :=
    15 * countIn search_terms title_lower +
    8 * countIn search_terms company_lower +
    5 * countIn search_terms summary_lower +
    7 * countIn location_terms location_lower +
    (if anyIn ["senior", "lead", "principal"] title_lower then 5
     else if anyIn ["junior", "entry", "intern"] title_lower then 3 else 0) +
    (if anyIn ["remote", "work from home"] location_lower then 8 else 0)
  let salary_numeric := parse_salary_to_number job.salary
  let score := score +
    (if 0 < salary_numeric then
      10 +
      (if 150000 ≤ salary_numeric then 15
       else if 120000 ≤ salary_numeric then 12
       else if 90000 ≤ salary_numeric then 8
       else if 60000 ≤ salary_numeric then 5 else 0)
     else 0)
  (score, { job with salary_numeric := salary_numeric })

/-- Claim C3: a record titled "Senior Python Developer" with salary
"$140,000", location "Remote" and a summary containing "Python" and
"AWS" (and a company name matching no keyword), scored against keywords
"Python, AWS" and location keyword "Remote", receives exactly
15 (keyword in title) + 5 + 5 (two keywords in summary) + 7 (location)
+ 5 (senior marker) + 8 (remote) + 10 (salary known) + 12 (tier
≥ 120000) = 67. -/
theorem claim_C3 (company summary : String)
    (hc1 : listHas "python".data (lowerList company.data) = false)
    (hc2 : listHas "aws".data (lowerList company.data) = false)
    (hs1 : listHas "python".data (lowerList summary.data) = true)
    (hs2 : listHas "aws".data (lowerList summary.data) = true) :
    (calculate_relevance_score
      { title := "Senior Python Developer"
        company := company
        location := "Remote"
        summary := summary
        salary := "$140,000" } "Python, AWS" "Remote").1
      = 15 + (5 + 5) + 7 + 5 + 8 + (10 + 12) ∧
    15 + (5 + 5) + 7 + 5 + 8 + (10 + 12) = 67 := by
  refine ⟨?_, rfl⟩
  have hkw : splitKeywords "Python, AWS" = ["python".data, "aws".data] := by decide
  have h8 : countIn ["python".data, "aws".data] (lowerList company.data) = 0 := by
    simp [countIn, List.filter_cons, hc1, hc2]
  have h5 : countIn ["python".data, "aws".data] (lowerList summary.data) = 2 := by
    simp [countIn, List.filter_cons, hs1, hs2]
  unfold calculate_relevance_score
  dsimp only
  rw [hkw, h8, h5]
  decide

/-- Witness for C3 at a concrete company and summary. -/
theorem claim_C3_witness :
    listHas "python".data (lowerList ("Tech Corp" : String).data) = false ∧
    listHas "aws".data (lowerList ("Tech Corp" : String).data) = false ∧
    listHas "python".data (lowerList ("We use Python and AWS daily" : String).data) = true ∧
    listHas "aws".data (lowerList ("We use Python and AWS daily" : String).data) = true ∧
    ((calculate_relevance_score
      { title := "Senior Python Developer"
        company := "Tech Corp"
        location := "Remote"
        summary := "We use Python and AWS daily"
        salary := "$140,000" } "Python, AWS" "Remote").1
      = 15 + (5 + 5) + 7 + 5 + 8 + (10 + 12) ∧
    15 + (5 + 5) + 7 + 5 + 8 + (10 + 12) = 67) :=
  ⟨by decide, by decide, by decide, by decide,
    claim_C3 "Tech Corp" "We use Python and AWS daily"
      (by decide) (by decide) (by decide) (by decide)⟩

/-! ### Sorting

`pandas.DataFrame.sort_values('col', ascending=False)` sorts on the
single given key (no secondary keys); equal keys are modelled as keeping
their prior relative order (stable insertion sort). -/

/-- Insert before the first element with a key not larger than `j`'s. -/
def insertByDesc (key : Job → Rat) (j : Job) : List Job → List Job
  | [] => [j]
  | x :: xs => if key x ≤ key j then j :: x :: xs else x :: insertByDesc key j xs

/-- Stable descending sort on a single key. -/
def sortByDesc (key : Job → Rat) : List Job → List Job
  | [] => []
  | x :: xs => insertByDesc key x (sortByDesc key xs)

/-! ### The "AI" ranking enhancement (`ai_enhanced_job_ranking`) -/

/-- The modern-technology keyword list of `ai_enhanced_job_ranking`. -/
def modernTech : List String :=
  ["ai", "machine learning", "cloud", "aws", "kubernetes", "react", "python"]

/-- The big-company list of `ai_enhanced_job_ranking`. -/
def bigTech : List String :=
  ["google", "microsoft", "amazon", "apple", "meta", "netflix"]

/-- The deterministic per-job career score computed inside
`ai_enhanced_job_ranking` (career level, technology keywords, big-tech
company, salary competitiveness).  It is local code: no external service
is consulted. -/
def ai_career_score (job : Job) : Nat :=
  let title_lower := lowerList job.title.data
  let company_lower := lowerList job.company.data
  let summary_lower := lowerList job.summary.data
  (if anyIn ["senior", "lead", "principal"] title_lower then 15
   else if anyIn ["mid", "intermediate"] title_lower then 10 else 0) +
  5 * ((modernTech.filter
    (fun t => listHas t.data title_lower || listHas t.data summary_lower)).length) +
  (if bigTech.any (fun c => listHas c.data company_lower) then 20 else 0) +
  (if 0 < job.salary_numeric then
    (if 200000 ≤ job.salary_numeric then 25
     else if 150000 ≤ job.salary_numeric then 20
     else if 120000 ≤ job.salary_numeric then 15
     else if 90000 ≤ job.salary_numeric then 10
     else if 60000 ≤ job.salary_numeric then 5 else 0)
   else 0)

/-- Row update applied to the first-twenty slice:
`final_ai_score = relevance_score * 0.6 + ai_career_score * 0.4`. -/
def blendTop (j : Job) : Job :=
  let c := ai_career_score j
  { j with
    ai_career_score := c
    final_ai_score := rAdd (rMul (j.relevance_score : Rat) (mkRat 6 10))
      (rMul (c : Rat) (mkRat 4 10)) }

/-- Row update applied to the remaining rows: `ai_career_score = 0`,
`final_ai_score = relevance_score`. -/
def keepRel (j : Job) : Job :=
  { j with
    ai_career_score := 0
    final_ai_score := (j.relevance_score : Rat) }

/-- Consecutive `ai_rank` assignment starting at `n`. -/
def setAiRanks (n : Nat) : List Job → List Job
  | [] => []
  | j :: t => { j with ai_rank := n } :: setAiRanks (n + 1) t

/-- Consecutive `rank` assignment starting at `n`. -/
def setRanks (n : Nat) : List Job → List Job
  | [] => []
  | j :: t => { j with rank := n } :: setRanks (n + 1) t

/-- `PerfectJobScraper.ai_enhanced_job_ranking`: blend the first twenty
rows of the dataframe (`jobs_df.head(20)`) with the career score, sort
that slice by the blended score, assign `ai_rank`, and append the
remaining rows with `final_ai_score = relevance_score`. -/
def ai_enhanced_job_ranking (jobs : List Job) : List Job :=
  let topSorted := sortByDesc (fun j => j.final_ai_score) ((jobs.take 20).map blendTop)
  let topRanked := setAiRanks 1 topSorted
  let remaining := setAiRanks (topSorted.length + 1) ((jobs.drop 20).map keepRel)
  topRanked ++ remaining

/-! ### Scoring stage and the pipeline (`process_and_rank_jobs`) -/

/-- `PerfectJobScraper.ai_enhanced_relevance_scoring`: the external
CrewAI analysis is abstracted as `ai : Job → Option Nat`; `none` models
a raised exception or a result without a parsable `SCORE:`, in which
case the code falls back to `calculate_relevance_score`.  Only the
returned score survives (`pandas.apply` discards row mutations). -/
def ai_enhanced_relevance_scoring (ai : Job → Option Nat) (job : Job)
    (search_keywords location_keywords : String) : Nat :=
  let job' := { job with salary_numeric := parse_salary_to_number job.salary }
  match ai job' with
  | some s => s
  | none => (calculate_relevance_score job' search_keywords location_keywords).1

/-- The data-cleaning step: `df['title'].str.strip()` etc. -/
def cleanJob (j : Job) : Job :=
  { j with
    title := ⟨trimList j.title.data⟩
    company := ⟨trimList j.company.data⟩
    location := ⟨trimList j.location.data⟩ }

/-- The salary column: `df['salary'].apply(parse_salary_to_number)`. -/
def salaryFill (j : Job) : Job :=
  { j with salary_numeric := parse_salary_to_number j.salary }

/-- The AI-path relevance column. -/
def scoreFillAI (ai : Job → Option Nat) (search_keywords location_keywords : String)
    (j : Job) : Job :=
  { j with relevance_score := ai_enhanced_relevance_scoring ai j search_keywords location_keywords }

/-- The traditional-path relevance column. -/
def scoreFillBase (search_keywords location_keywords : String) (j : Job) : Job :=
  { j with relevance_score := (calculate_relevance_score j search_keywords location_keywords).1 }

/-- `df.drop_duplicates(subset=['title', 'company'], keep='first')`:
keeps the first row for each exact `(title, company)` pair.  Note that
this runs before the whitespace-stripping step and compares the raw
strings exactly (case- and whitespace-sensitively). -/
def dedupGo (seen : List (String × String)) : List Job → List Job
  | [] => []
  | j :: t =>
    if (j.title, j.company) ∈ seen then dedupGo seen t
    else j :: dedupGo ((j.title, j.company) :: seen) t

/-- Deduplication from an empty seen-set. -/
def dedupFirst (l : List Job) : List Job := dedupGo [] l

/-- The AI-path pipeline up to (and including) `ai_enhanced_job_ranking`,
before the final sort: dedup, strip, salary parse, AI scoring, ranking
enhancement. -/
def rankedPool (ai : Job → Option Nat) (jobs : List Job)
    (search_keywords location_keywords : String) : List Job :=
  ai_enhanced_job_ranking
    ((((dedupFirst jobs).map cleanJob).map salaryFill).map
      (scoreFillAI ai search_keywords location_keywords))

/-- `PerfectJobScraper.process_and_rank_jobs` (the returned dataframe;
the insight text is presentation only).  With `use_ai = true` the
dataframe is scored by `ai_enhanced_relevance_scoring`, passed through
`ai_enhanced_job_ranking`, sorted by `final_ai_score` descending and
densely ranked; with `use_ai = false` it is scored by
`calculate_relevance_score` and sorted by `relevance_score`. -/
def process_and_rank_jobs (ai : Job → Option Nat) (jobs : List Job)
    (search_keywords location_keywords : String) (use_ai : Bool) : List Job :=
  if jobs = [] then []
  else if use_ai then
    setRanks 1 (sortByDesc (fun j => j.final_ai_score)
      (rankedPool ai jobs search_keywords location_keywords))
  else
    setRanks 1 (sortByDesc (fun j => (j.relevance_score : Rat))
      ((((dedupFirst jobs).map cleanJob).map salaryFill).map
        (scoreFillBase search_keywords location_keywords)))

/-! ### The collection orchestrator (`scrape_all_sources`) -/

/-- The fan-in loop of `scrape_all_sources`:
`for future in as_completed(futures): try: all_jobs.extend(future.result())
except: ...` — a successful future's jobs are appended to the
accumulator, a raised exception is caught and contributes nothing. -/
def mergeResults (acc : List Job) : List (Except String (List Job)) → List Job
  | [] => acc
  | Except.ok jobs :: t => mergeResults (acc ++ jobs) t
  | Except.error _ :: t => mergeResults acc t

/-- `PerfectJobScraper.scrape_all_sources`: each adapter future's outcome
is an `Except` value (`Except.error` models an exception raised by the
adapter); the jobs of successful adapters are merged in completion
order, then the API phase's jobs are appended. -/
def scrape_all_sources (results : List (Except String (List Job)))
    (api_jobs : List Job) : List Job :=
  mergeResults [] results ++ api_jobs

/-! ### Orchestrator lemmas and claim C1 -/

theorem mem_mergeResults (results : List (Except String (List Job)))
    (acc : List Job) (j : Job) :
    j ∈ mergeResults acc results ↔
      j ∈ acc ∨ ∃ l, Except.ok l ∈ results ∧ j ∈ l := by
  induction results generalizing acc with
  | nil => simp [mergeResults]
  | cons r t ih =>
    cases r with
    | ok l =>
      rw [mergeResults, ih]
      simp only [List.mem_append, List.mem_cons, Except.ok.injEq]
      constructor
      · rintro ((h | h) | ⟨l', hl', hj⟩)
        · exact Or.inl h
        · exact Or.inr ⟨l, Or.inl rfl, h⟩
        · exact Or.inr ⟨l', Or.inr hl', hj⟩
      · rintro (h | ⟨l', (rfl | hl'), hj⟩)
        · exact Or.inl (Or.inl h)
        · exact Or.inl (Or.inr hj)
        · exact Or.inr ⟨l', hl', hj⟩
    | error e =>
      rw [mergeResults, ih]
      simp only [List.mem_cons]
      constructor
      · rintro (h | ⟨l', hl', hj⟩)
        · exact Or.inl h
        · exact Or.inr ⟨l', Or.inr hl', hj⟩
      · rintro (h | ⟨l', (hl' | hl'), hj⟩)
        · exact Or.inl h
        · cases hl'
        · exact Or.inr ⟨l', hl', hj⟩

/-- Claim C1: the orchestrator's merged output contains exactly the
union of the records returned by the successful adapters (plus the API
phase); failed adapters contribute nothing, and the merge is a total
function, so the run completes for every combination of failures. -/
theorem claim_C1 (results : List (Except String (List Job)))
    (api_jobs : List Job) (j : Job) :
    j ∈ scrape_all_sources results api_jobs ↔
      (∃ l, Except.ok l ∈ results ∧ j ∈ l) ∨ j ∈ api_jobs := by
  rw [scrape_all_sources]
  simp only [List.mem_append, mem_mergeResults, List.not_mem_nil, false_or]

/-! ### Sorting lemmas: permutation, sortedness, stability -/

theorem insertByDesc_perm (key : Job → Rat) (j : Job) (l : List Job) :
    List.Perm (insertByDesc key j l) (j :: l) := by
  induction l with
  | nil => exact List.Perm.refl _
  | cons x xs ih =>
    rw [insertByDesc]
    split
    · exact List.Perm.refl _
    · exact (ih.cons x).trans (List.Perm.swap j x xs)

theorem sortByDesc_perm (key : Job → Rat) (l : List Job) :
    List.Perm (sortByDesc key l) l := by
  induction l with
  | nil => exact List.Perm.refl _
  | cons x xs ih =>
    rw [sortByDesc]
    exact (insertByDesc_perm key x _).trans (ih.cons x)

theorem mem_insertByDesc (key : Job → Rat) (j y : Job) (l : List Job) :
    y ∈ insertByDesc key j l ↔ y = j ∨ y ∈ l := by
  rw [(insertByDesc_perm key j l).mem_iff, List.mem_cons]

theorem insertByDesc_pairwise (key : Job → Rat) (j : Job) (l : List Job)
    (h : List.Pairwise (fun a b => key b ≤ key a) l) :
    List.Pairwise (fun a b => key b ≤ key a) (insertByDesc key j l) := by
  induction l with
  | nil => simp [insertByDesc]
  | cons x xs ih =>
    rw [insertByDesc]
    rcases List.pairwise_cons.mp h with ⟨hx, hxs⟩
    split
    · next hle =>
      refine List.pairwise_cons.mpr ⟨?_, h⟩
      intro y hy
      rcases List.mem_cons.mp hy with rfl | hy'
      · exact hle
      · exact le_trans (hx y hy') hle
    · next hle =>
      refine List.pairwise_cons.mpr ⟨?_, ih hxs⟩
      intro y hy
      rcases (mem_insertByDesc key j y xs).mp hy with rfl | hy'
      · exact le_of_not_le hle
      · exact hx y hy'

theorem sortByDesc_pairwise (key : Job → Rat) (l : List Job) :
    List.Pairwise (fun a b => key b ≤ key a) (sortByDesc key l) := by
  induction l with
  | nil => exact List.Pairwise.nil
  | cons x xs ih =>
    rw [sortByDesc]
    exact insertByDesc_pairwise key x _ ih

theorem filter_insertByDesc_of_eq (key : Job → Rat) (j : Job) (l : List Job)
    (q : Rat) (hj : key j = q) :
    (insertByDesc key j l).filter (fun x => decide (key x = q)) =
      j :: l.filter (fun x => decide (key x = q)) := by
  induction l with
  | nil => simp [insertByDesc, hj]
  | cons x xs ih =>
    rw [insertByDesc]
    split
    · next hle => simp [List.filter_cons, hj]
    · next hle =>
      have hx : ¬ key x = q := fun hh => hle (le_of_eq (hh.trans hj.symm))
      simp [List.filter_cons, hx, ih]

theorem filter_insertByDesc_of_ne (key : Job → Rat) (j : Job) (l : List Job)
    (q : Rat) (hj : ¬ key j = q) :
    (insertByDesc key j l).filter (fun x => decide (key x = q)) =
      l.filter (fun x => decide (key x = q)) := by
  induction l with
  | nil => simp [insertByDesc, hj]
  | cons x xs ih =>
    rw [insertByDesc]
    split
    · simp [List.filter_cons, hj]
    · simp [List.filter_cons, ih]

/-- Stability of the sort: records with any given key value keep their
relative order. -/
theorem filter_sortByDesc (key : Job → Rat) (l : List Job) (q : Rat) :
    (sortByDesc key l).filter (fun x => decide (key x = q)) =
      l.filter (fun x => decide (key x = q)) := by
  induction l with
  | nil => rfl
  | cons x xs ih =>
    rw [sortByDesc]
    by_cases h : key x = q
    · rw [filter_insertByDesc_of_eq key x _ q h, ih, List.filter_cons]
      simp [h]
    · rw [filter_insertByDesc_of_ne key x _ q h, ih, List.filter_cons]
      simp [h]

/-! ### Rank-assignment lemmas -/

/-- The score triple of a record: `(final_ai_score, relevance_score,
ai_career_score)` — everything the scoring claims talk about, invariant
under rank assignment. -/
def scoresOf (j : Job) : Rat × Nat × Nat :=
  (j.final_ai_score, j.relevance_score, j.ai_career_score)

theorem setRanks_map_rank (n : Nat) (l : List Job) :
    (setRanks n l).map (fun j => j.rank) = List.range' n l.length := by
  induction l generalizing n with
  | nil => rfl
  | cons j t ih =>
    rw [setRanks, List.length_cons, List.range'_succ]
    simp [ih]

theorem setRanks_map_scoresOf (n : Nat) (l : List Job) :
    (setRanks n l).map scoresOf = l.map scoresOf := by
  induction l generalizing n with
  | nil => rfl
  | cons j t ih =>
    rw [setRanks]
    simp [scoresOf, ih]

theorem setAiRanks_map_scoresOf (n : Nat) (l : List Job) :
    (setAiRanks n l).map scoresOf = l.map scoresOf := by
  induction l generalizing n with
  | nil => rfl
  | cons j t ih =>
    rw [setAiRanks]
    simp [scoresOf, ih]

theorem setRanks_map_final (n : Nat) (l : List Job) :
    (setRanks n l).map (fun j => j.final_ai_score) = l.map (fun j => j.final_ai_score) := by
  induction l generalizing n with
  | nil => rfl
  | cons j t ih =>
    rw [setRanks]
    simp [ih]

theorem setRanks_map_rel (n : Nat) (l : List Job) :
    (setRanks n l).map (fun j => j.relevance_score) = l.map (fun j => j.relevance_score) := by
  induction l generalizing n with
  | nil => rfl
  | cons j t ih =>
    rw [setRanks]
    simp [ih]

theorem setRanks_length (n : Nat) (l : List Job) : (setRanks n l).length = l.length := by
  induction l generalizing n with
  | nil => rfl
  | cons j t ih =>
    rw [setRanks]
    simp [ih]

theorem setRanks_filter_final (n : Nat) (l : List Job) (q : Rat) :
    ((setRanks n l).filter (fun j => decide (j.final_ai_score = q))).map scoresOf =
      (l.filter (fun j => decide (j.final_ai_score = q))).map scoresOf := by
  induction l generalizing n with
  | nil => rfl
  | cons j t ih =>
    rw [setRanks]
    by_cases h : j.final_ai_score = q
    · simp [List.filter_cons, h, scoresOf, ih]
    · simp [List.filter_cons, h, ih]

/-- Claim C7: in the final output of `process_and_rank_jobs` the sort
key is non-increasing across the whole sequence and the `rank` column is
exactly `1..N`.  On the AI path the key is `final_ai_score`; on the
traditional path it is `relevance_score` (no `final_ai_score` column is
assigned there). -/
theorem claim_C7 (ai : Job → Option Nat) (jobs : List Job)
    (search_keywords location_keywords : String) :
    ((process_and_rank_jobs ai jobs search_keywords location_keywords true).map
        (fun j => j.rank) =
      List.range' 1
        (process_and_rank_jobs ai jobs search_keywords location_keywords true).length) ∧
    List.Pairwise (fun a b : Rat => b ≤ a)
      ((process_and_rank_jobs ai jobs search_keywords location_keywords true).map
        (fun j => j.final_ai_score)) ∧
    ((process_and_rank_jobs ai jobs search_keywords location_keywords false).map
        (fun j => j.rank) =
      List.range' 1
        (process_and_rank_jobs ai jobs search_keywords location_keywords false).length) ∧
    List.Pairwise (fun a b : Nat => b ≤ a)
      ((process_and_rank_jobs ai jobs search_keywords location_keywords false).map
        (fun j => j.relevance_score)) := by
  by_cases hj : jobs = []
  · simp [process_and_rank_jobs, hj]
  · refine ⟨?_, ?_, ?_, ?_⟩
    · rw [process_and_rank_jobs]
      simp only [hj, if_false, if_true, ite_true, ite_false]
      rw [setRanks_map_rank, setRanks_length]
    · rw [process_and_rank_jobs]
      simp only [hj, if_false, if_true, ite_true, ite_false]
      rw [setRanks_map_final]
      exact List.pairwise_map.mpr (sortByDesc_pairwise _ _)
    · rw [process_and_rank_jobs]
      simp only [hj, Bool.false_eq_true, if_false, ite_true, ite_false]
      rw [setRanks_map_rank, setRanks_length]
    · rw [process_and_rank_jobs]
      simp only [hj, Bool.false_eq_true, if_false, ite_true, ite_false]
      rw [setRanks_map_rel]
      refine List.pairwise_map.mpr ?_
      refine (sortByDesc_pairwise (fun j => (j.relevance_score : Rat)) _).imp ?_
      intro a b h
      exact_mod_cast h

/-! ### Deduplication lemmas and claim C2 -/

theorem dedupGo_spec (l : List Job) : ∀ seen : List (String × String),
    (∀ j ∈ dedupGo seen l, (j.title, j.company) ∉ seen) ∧
    List.Pairwise (fun a b => ¬(a.title = b.title ∧ a.company = b.company))
      (dedupGo seen l) := by
  induction l with
  | nil =>
    intro seen
    exact ⟨by simp [dedupGo], by simp [dedupGo]⟩
  | cons j t ih =>
    intro seen
    rw [dedupGo]
    split
    · exact ih seen
    · next hnot =>
      obtain ⟨ih1, ih2⟩ := ih ((j.title, j.company) :: seen)
      constructor
      · intro y hy
        rcases List.mem_cons.mp hy with rfl | hy'
        · exact hnot
        · exact fun hsy => (ih1 y hy') (List.mem_cons_of_mem _ hsy)
      · refine List.pairwise_cons.mpr ⟨?_, ih2⟩
        intro y hy heq
        apply ih1 y hy
        have hpair : (y.title, y.company) = (j.title, j.company) := by
          rw [heq.1, heq.2]
        rw [hpair]
        exact List.mem_cons_self _ _

theorem dedupGo_length_le (l : List Job) : ∀ seen, (dedupGo seen l).length ≤ l.length := by
  induction l with
  | nil => intro seen; simp [dedupGo]
  | cons j t ih =>
    intro seen
    rw [dedupGo]
    split
    · exact le_trans (ih seen) (Nat.le_succ _)
    · exact Nat.succ_le_succ (ih _)

theorem setAiRanks_length (n : Nat) (l : List Job) : (setAiRanks n l).length = l.length := by
  induction l generalizing n with
  | nil => rfl
  | cons j t ih =>
    rw [setAiRanks]
    simp [ih]

theorem ai_enhanced_job_ranking_length (l : List Job) :
    (ai_enhanced_job_ranking l).length = l.length := by
  rw [ai_enhanced_job_ranking]
  simp only [List.length_append, setAiRanks_length,
    (sortByDesc_perm (fun j => j.final_ai_score) _).length_eq,
    List.length_map, List.length_take, List.length_drop]
  omega

theorem process_and_rank_jobs_length_le (ai : Job → Option Nat) (jobs : List Job)
    (search_keywords location_keywords : String) (use_ai : Bool) :
    (process_and_rank_jobs ai jobs search_keywords location_keywords use_ai).length
      ≤ jobs.length := by
  by_cases hj : jobs = []
  · simp [process_and_rank_jobs, hj]
  · rw [process_and_rank_jobs]
    simp only [hj, if_false, ite_false]
    cases use_ai with
    | true =>
      simp only [ite_true]
      rw [setRanks_length, (sortByDesc_perm _ _).length_eq, rankedPool,
        ai_enhanced_job_ranking_length]
      simp only [List.length_map]
      exact dedupGo_length_le jobs []
    | false =>
      simp only [Bool.false_eq_true, ite_false]
      rw [setRanks_length, (sortByDesc_perm _ _).length_eq]
      simp only [List.length_map]
      exact dedupGo_length_le jobs []

/-- The spec's deduplication key: lowercased, whitespace-trimmed
`(title, company)`. -/
def specKey (j : Job) : List Char × List Char :=
  (lowerList (trimList j.title.data), lowerList (trimList j.company.data))

/-- An always-failing external AI service (every CrewAI call raises or
returns no parsable score). -/
def aiNone : Job → Option Nat := fun _ => none

def jobC2a : Job :=
  { title := "Dev"
    company := "Acme" }

def jobC2b : Job :=
  { title := "dev"
    company := "Acme" }

/-- Counterexample to C2 as stated: `drop_duplicates` compares the raw
`(title, company)` strings exactly and runs before lower-casing, so two
records whose titles differ only by case both survive the pipeline and
share the case-insensitive key. -/
theorem claim_C2_counterexample :
    (process_and_rank_jobs aiNone [jobC2a, jobC2b] "x" "y" true).map specKey =
      [("dev".data, "acme".data), ("dev".data, "acme".data)] := by
  decide

/-- Claim C2 (amended): the output size never exceeds the input size,
and deduplication guarantees at most one record per exact raw
`(title, company)` key (not per case/space-insensitive key). -/
theorem claim_C2 (ai : Job → Option Nat) (jobs : List Job)
    (search_keywords location_keywords : String) (use_ai : Bool) :
    (process_and_rank_jobs ai jobs search_keywords location_keywords use_ai).length
        ≤ jobs.length ∧
    List.Pairwise (fun a b => ¬(a.title = b.title ∧ a.company = b.company))
      (dedupFirst jobs) :=
  ⟨process_and_rank_jobs_length_le ai jobs search_keywords location_keywords use_ai,
    (dedupGo_spec jobs []).2⟩

/-! ### The enrichment slice: claim C6 -/

def jobC6base : Job :=
  { title := "t"
    company := "c" }

def jobC6top : Job :=
  { title := "z"
    relevance_score := 50 }

/-- Counterexample to C6 as stated: `ai_enhanced_job_ranking` slices
`jobs_df.head(20)` of the dataframe in its current (pre-sort, arrival)
order, not the top twenty by `relevance_score`.  With twenty
zero-relevance records followed by one record of relevance 50, the
highest-relevance record falls outside the slice: it keeps
`final_ai_score = 50` instead of the blended
`0.6 * 50 + 0.4 * 0 = 30` the claim would require for a top-K record,
while the twenty zero-relevance records are the ones blended. -/
theorem claim_C6_counterexample :
    (ai_enhanced_job_ranking (List.replicate 20 jobC6base ++ [jobC6top])).map
        (fun j => ((j.relevance_score : Rat), j.final_ai_score)) =
      List.replicate 20 ((0 : Rat), (0 : Rat)) ++ [(50, 50)] ∧
    ai_career_score jobC6top = 0 ∧
    rAdd (rMul ((50 : Nat) : Rat) (mkRat 6 10)) (rMul ((0 : Nat) : Rat) (mkRat 4 10)) = 30 ∧
    (50 : Rat) ≠ 30 := by
  decide

/-- Up to score triples, `ai_enhanced_job_ranking` returns a permutation
of the blended first-twenty slice followed by the untouched rest. -/
theorem ranking_scoresOf_perm (jobs : List Job) :
    List.Perm ((ai_enhanced_job_ranking jobs).map scoresOf)
      (((jobs.take 20).map blendTop).map scoresOf ++
        ((jobs.drop 20).map keepRel).map scoresOf) := by
  rw [ai_enhanced_job_ranking]
  rw [List.map_append, setAiRanks_map_scoresOf, setAiRanks_map_scoresOf]
  exact ((sortByDesc_perm _ _).map scoresOf).append_right _

/-- Claim C6 (amended): the blend is applied to exactly the first
`min 20 N` records of the dataframe's current order (arrival order after
deduplication), not to the top twenty by `relevance_score`: up to score
triples, the ranking's output is a permutation of the blended first
twenty records followed by the untouched rest; sliced records get
`final_ai_score = relevance_score * 0.6 + ai_career_score * 0.4` and
records outside the slice keep `final_ai_score = relevance_score`. -/
theorem claim_C6 (jobs : List Job) :
    List.Perm ((ai_enhanced_job_ranking jobs).map scoresOf)
      (((jobs.take 20).map blendTop).map scoresOf ++
        ((jobs.drop 20).map keepRel).map scoresOf) ∧
    (jobs.take 20).map (fun j => (blendTop j).final_ai_score) =
      (jobs.take 20).map (fun j =>
        rAdd (rMul (j.relevance_score : Rat) (mkRat 6 10))
          (rMul (ai_career_score j : Rat) (mkRat 4 10))) ∧
    (jobs.drop 20).map (fun j => (keepRel j).final_ai_score) =
      (jobs.drop 20).map (fun j => (j.relevance_score : Rat)) := by
  exact ⟨ranking_scoresOf_perm jobs, rfl, rfl⟩

/-! ### The final ordering: claim C8 -/

def jobC8a : Job :=
  { title := "Senior Sales"
    company := "Acme"
    location := "Onsite" }

def jobC8b : Job :=
  { title := "Plumber"
    company := "Bco"
    location := "Office" }

/-- Counterexample to C8 as stated: the final sort is
`sort_values('final_ai_score')` with no secondary keys.  Two records
tie on `final_ai_score = 9` (relevance 5 with career score 15, and
relevance 15 with career score 0): the output orders the relevance-5
record first, violating the claimed descending-`relevance_score`
tie-break, and orders title "Senior Sales" before "Plumber", violating
the claimed ascending-title tie-break. -/
theorem claim_C8_counterexample :
    (process_and_rank_jobs aiNone [jobC8a, jobC8b] "plumb" "zz" true).map
        (fun j => (j.final_ai_score, j.relevance_score, j.title)) =
      [(9, 5, "Senior Sales"), (9, 15, "Plumber")] := by
  decide

/-- Claim C8 (amended): the final ordering is deterministic but is
produced by sorting on `final_ai_score` alone: the sequence is
non-increasing in `final_ai_score`, and records with equal
`final_ai_score` keep the relative order they had before the sort (the
order produced by `ai_enhanced_job_ranking`); no
relevance/source-priority/title tie-break keys exist in the code. -/
theorem claim_C8 (ai : Job → Option Nat) (jobs : List Job)
    (search_keywords location_keywords : String) :
    List.Pairwise (fun a b : Rat => b ≤ a)
      ((process_and_rank_jobs ai jobs search_keywords location_keywords true).map
        (fun j => j.final_ai_score)) ∧
    ∀ q : Rat,
      ((process_and_rank_jobs ai jobs search_keywords location_keywords true).filter
          (fun j => decide (j.final_ai_score = q))).map scoresOf =
        ((rankedPool ai jobs search_keywords location_keywords).filter
          (fun j => decide (j.final_ai_score = q))).map scoresOf := by
  by_cases hj : jobs = []
  · subst hj
    constructor
    · simp [process_and_rank_jobs]
    · intro q
      have hpool : rankedPool ai [] search_keywords location_keywords = [] := rfl
      simp [process_and_rank_jobs, hpool]
  · constructor
    · rw [process_and_rank_jobs]
      simp only [hj, if_false, ite_true, ite_false]
      rw [setRanks_map_final]
      exact List.pairwise_map.mpr (sortByDesc_pairwise _ _)
    · intro q
      rw [process_and_rank_jobs]
      simp only [hj, if_false, ite_true, ite_false]
      rw [setRanks_filter_final]
      exact congrArg (List.map scoresOf)
        (filter_sortByDesc (fun j => j.final_ai_score) _ q)

/-! ### Enrichment failure: claim C9 -/

def jobC9 : Job :=
  { title := "Senior Sales"
    company := "Acme"
    location := "Onsite" }

/-- Counterexample to C9 as stated: with an always-failing external AI
service, the single record (which sits in the first-twenty slice) still
receives the blended `final_ai_score = 0.6 * 5 + 0.4 * 15 = 9`, not
`final_ai_score = relevance_score = 5`: the career-score blend is local
code that runs regardless of enrichment failure, so the final ranking is
not the pure baseline-relevance ranking. -/
theorem claim_C9_counterexample :
    (process_and_rank_jobs aiNone [jobC9] "python" "zz" true).map
        (fun j => (j.final_ai_score, (j.relevance_score : Rat))) = [(9, 5)] ∧
    (9 : Rat) ≠ 5 := by
  decide

/-- Claim C9 (amended): when the external AI call fails, the record's
`relevance_score` falls back to the deterministic baseline scorer and
the pipeline completes (the embedding is total); however every record of
the first-twenty slice still receives the locally computed blend
`final_ai_score = relevance_score * 0.6 + ai_career_score * 0.4` — only
records outside the slice keep `final_ai_score = relevance_score` (with
career score 0).  An always-failing enrichment therefore yields the
baseline relevance scores but not the pure baseline-relevance
ranking. -/
theorem claim_C9 (ai : Job → Option Nat) (jobs : List Job)
    (search_keywords location_keywords : String) :
    (∀ job : Job,
      ai_enhanced_relevance_scoring aiNone job search_keywords location_keywords =
        (calculate_relevance_score
          { job with salary_numeric := parse_salary_to_number job.salary }
          search_keywords location_keywords).1) ∧
    List.Forall
      (fun j =>
        j.final_ai_score =
          rAdd (rMul (j.relevance_score : Rat) (mkRat 6 10))
            (rMul (j.ai_career_score : Rat) (mkRat 4 10)) ∨
        (j.ai_career_score = 0 ∧ j.final_ai_score = (j.relevance_score : Rat)))
      (process_and_rank_jobs ai jobs search_keywords location_keywords true) := by
  refine ⟨fun job => rfl, List.forall_iff_forall_mem.mpr ?_⟩
  intro j hj
  by_cases hempty : jobs = []
  · rw [hempty, process_and_rank_jobs] at hj
    simp at hj
  · rw [process_and_rank_jobs] at hj
    simp only [hempty, if_false, ite_true, ite_false] at hj
    have hx : scoresOf j ∈
        (setRanks 1 (sortByDesc (fun j => j.final_ai_score)
          (rankedPool ai jobs search_keywords location_keywords))).map scoresOf :=
      List.mem_map_of_mem scoresOf hj
    rw [setRanks_map_scoresOf] at hx
    rw [((sortByDesc_perm (fun j => j.final_ai_score) _).map scoresOf).mem_iff] at hx
    rw [rankedPool] at hx
    rw [(ranking_scoresOf_perm _).mem_iff] at hx
    rcases List.mem_append.mp hx with htop | hrest
    · rcases List.mem_map.mp htop with ⟨y, hy, hyeq⟩
      rcases List.mem_map.mp hy with ⟨j0, hj0, rfl⟩
      left
      have h1 : j.final_ai_score = (blendTop j0).final_ai_score := congrArg Prod.fst hyeq.symm
      have h2 : j.relevance_score = (blendTop j0).relevance_score := by
        have := congrArg (fun p => p.2.1) hyeq.symm
        exact this
      have h3 : j.ai_career_score = (blendTop j0).ai_career_score := by
        have := congrArg (fun p => p.2.2) hyeq.symm
        exact this
      rw [h1, h2, h3]
      rfl
    · rcases List.mem_map.mp hrest with ⟨y, hy, hyeq⟩
      rcases List.mem_map.mp hy with ⟨j0, hj0, rfl⟩
      right
      have h1 : j.final_ai_score = (keepRel j0).final_ai_score := congrArg Prod.fst hyeq.symm
      have h2 : j.relevance_score = (keepRel j0).relevance_score := by
        have := congrArg (fun p => p.2.1) hyeq.symm
        exact this
      have h3 : j.ai_career_score = (keepRel j0).ai_career_score := by
        have := congrArg (fun p => p.2.2) hyeq.symm
        exact this
      rw [h1, h2, h3]
      exact ⟨rfl, rfl⟩

/-! ### Purity of the scorer: claim C10 -/

def jobC10 : Job :=
  { title := "a"
    company := "b"
    location := "c"
    salary := "90k" }

/-- Counterexample to C10 as stated: `calculate_relevance_score`
mutates its input record — it assigns `job['salary_numeric']` (here
`0 → 90000`), so the call does not leave every field of the record
unchanged. -/
theorem claim_C10_counterexample :
    (calculate_relevance_score jobC10 "x" "y").2 ≠ jobC10 ∧
    ((calculate_relevance_score jobC10 "x" "y").2).salary_numeric = 90000 ∧
    jobC10.salary_numeric = 0 := by
  decide

/-- Claim C10 (amended): the scorer is a deterministic function of the
record and the criteria (the embedding is a pure function, so equal
inputs give equal outputs) returning a non-negative integer, and it
leaves every field of the record unchanged except `salary_numeric`,
which it overwrites with the parsed salary. -/
theorem claim_C10 (job : Job) (search_keywords location_keywords : String) :
    (calculate_relevance_score job search_keywords location_keywords).2.title = job.title ∧
    (calculate_relevance_score job search_keywords location_keywords).2.company = job.company ∧
    (calculate_relevance_score job search_keywords location_keywords).2.location = job.location ∧
    (calculate_relevance_score job search_keywords location_keywords).2.summary = job.summary ∧
    (calculate_relevance_score job search_keywords location_keywords).2.salary = job.salary ∧
    (calculate_relevance_score job search_keywords location_keywords).2.source = job.source ∧
    (calculate_relevance_score job search_keywords location_keywords).2.relevance_score =
      job.relevance_score ∧
    (calculate_relevance_score job search_keywords location_keywords).2.ai_career_score =
      job.ai_career_score ∧
    (calculate_relevance_score job search_keywords location_keywords).2.final_ai_score =
      job.final_ai_score ∧
    (calculate_relevance_score job search_keywords location_keywords).2.rank = job.rank ∧
    (calculate_relevance_score job search_keywords location_keywords).2.ai_rank = job.ai_rank ∧
    (calculate_relevance_score job search_keywords location_keywords).2.salary_numeric =
      parse_salary_to_number job.salary ∧
    0 ≤ ((calculate_relevance_score job search_keywords location_keywords).1 : Int) :=
  ⟨rfl, rfl, rfl, rfl, rfl, rfl, rfl, rfl, rfl, rfl, rfl, rfl, Int.natCast_nonneg _⟩
